import Mathlib

/-!
Shallow embedding of the Solar Calendar conversion engine
(source: `src/config/cognito.ts` of the solarcalendar repository).

Modelling conventions:
* A Gregorian calendar date (taken at local midnight) is represented by its
  signed whole-day offset from the epoch June 24, 1999 — the quantity the
  source computes as `daysSinceEpoch` via millisecond subtraction and
  `Math.floor`, and produces via `setDate` day addition.  Date-level equality
  of two local-midnight dates is equality of their day offsets.
* JavaScript's `%` is the truncating remainder, embedded as `Int.tmod`
  (Lean's `%` on `Int` is the Euclidean remainder, which differs on
  negative operands).
* `Math.ceil(x / 30)` on an integer-valued `x` is the integer ceiling,
  embedded as `-(-x / 30)` (Euclidean division by a positive constant
  rounds down, so negating twice rounds up).
* `solarDate.month || 1` maps both `undefined` and `0` to `1`; `month` is
  embedded as `Option Int` and the defaulting as `monthOr1`.
* TypeScript functions may throw; `solarToGregorian` is therefore embedded
  with an `Except` codomain.  The source body has no `throw`, so every
  branch ends in `Except.ok`.
-/

/-- SolarDate record, mirroring the `SolarDate` interface of the source.
`dayOfWeek` is `Option Int` (`null` for Solstice days), `solsticeDay` is
`Option Int` (absent on regular days). -/
structure SolarDate where
  year : Int
  month : Int
  day : Int
  dayOfWeek : Option Int
  dayOfYear : Int
  isSolsticeDay : Bool
  solsticeDay : Option Int
  isLeapYear : Bool
deriving Repr, DecidableEq

/-- Input shape accepted by `solarToGregorian` in the source:
`{ year, month?, day, isSolsticeDay? }`. -/
structure SolarInput where
  year : Int
  month : Option Int
  day : Int
  isSolsticeDay : Bool
deriving Repr, DecidableEq

/-- Error taxonomy of the spec's §7; the source never actually raises it. -/
inductive ConvError where
  | invalidArgument
deriving Repr, DecidableEq

/-- Embeds `isSolarLeapYear`: `((solarYear % 4) + 4) % 4 === 0` with
JavaScript's truncating `%`. -/
def isSolarLeapYear (solarYear : Int) : Bool :=
  (Int.tmod (Int.tmod solarYear 4 + 4) 4) == 0

/-- Embeds `daysInSolarYear`. -/
def daysInSolarYear (solarYear : Int) : Int :=
  if isSolarLeapYear solarYear then 366 else 365

/-- Embeds `solsticeDaysCount`. -/
def solsticeDaysCount (solarYear : Int) : Int :=
  if isSolarLeapYear solarYear then 6 else 5

theorem daysInSolarYear_eq (y : Int) :
    daysInSolarYear y = 365 ∨ daysInSolarYear y = 366 := by
  unfold daysInSolarYear
  split
  · exact Or.inr rfl
  · exact Or.inl rfl

/-- Embeds the forward year walk of `gregorianToSolar`:
`while (remainingDays >= daysInSolarYear(year)) { remainingDays -= ...; year++ }`.
Returns the final `(year, remainingDays)` pair. -/
def forwardWalk (year d : Int) : Int × Int :=
  if h : daysInSolarYear year ≤ d then
    forwardWalk (year + 1) (d - daysInSolarYear year)
  else
    (year, d)
termination_by d.toNat
decreasing_by
  have h365 := daysInSolarYear_eq year
  omega

/-- Embeds the backward year walk of `gregorianToSolar`:
`year = -1; while (remainingDays < 0) { remainingDays += daysInSolarYear(year);
if (remainingDays < 0) year-- }`. Returns the final `(year, remainingDays)`. -/
def backwardWalk (year d : Int) : Int × Int :=
  if h : d < 0 then
    if h2 : d + daysInSolarYear year < 0 then
      backwardWalk (year - 1) (d + daysInSolarYear year)
    else
      (year, d + daysInSolarYear year)
  else
    (year, d)
termination_by (-d).toNat
decreasing_by
  have h365 := daysInSolarYear_eq year
  omega

/-- Year/remainder pair `gregorianToSolar` computes for a given
`daysSinceEpoch`: forward walk from year 0 when the offset is non-negative,
backward walk from year −1 otherwise. -/
def walkFromEpoch (daysSinceEpoch : Int) : Int × Int :=
  if 0 ≤ daysSinceEpoch then forwardWalk 0 daysSinceEpoch
  else backwardWalk (-1) daysSinceEpoch

/-- Embeds the tail of `gregorianToSolar` after the year walk: builds the
`SolarDate` from the final year and 0-indexed `remainingDays`. -/
def finishConv (year remainingDays : Int) : SolarDate :=
  let dayOfYear := remainingDays + 1
  let leap := isSolarLeapYear year
  if dayOfYear > 360 then
    { year := year, month := 0, day := dayOfYear - 360, dayOfWeek := none,
      dayOfYear := dayOfYear, isSolsticeDay := true,
      solsticeDay := some (dayOfYear - 360), isLeapYear := leap }
  else
    let month := -(-dayOfYear / 30)
    let day := Int.tmod (dayOfYear - 1) 30 + 1
    let dow := Int.tmod (day - 1) 6
    { year := year, month := month, day := day, dayOfWeek := some dow,
      dayOfYear := dayOfYear, isSolsticeDay := false,
      solsticeDay := none, isLeapYear := leap }

/-- Embeds `gregorianToSolar`, with the input Gregorian date already reduced
to its day offset from the epoch (the source's `daysSinceEpoch`). -/
def gregorianToSolar (daysSinceEpoch : Int) : SolarDate :=
  finishConv (walkFromEpoch daysSinceEpoch).1 (walkFromEpoch daysSinceEpoch).2

/-- Sum of `daysInSolarYear y` for `y = 0 .. n-1`: the forward year loop of
`solarToGregorian`. -/
def sumDaysFwd : Nat → Int
  | 0 => 0
  | n + 1 => sumDaysFwd n + daysInSolarYear n

/-- Sum of `daysInSolarYear (-k)` for `k = 1 .. n`: the magnitude accumulated
by the backward year loop of `solarToGregorian`. -/
def sumDaysBwd : Nat → Int
  | 0 => 0
  | n + 1 => sumDaysBwd n + daysInSolarYear (-(n + 1 : Int))

/-- Signed day offset of the start of a Solar year from the epoch, as the two
year-accumulation loops of `solarToGregorian` compute it. -/
def yearStart (year : Int) : Int :=
  if 0 ≤ year then sumDaysFwd year.toNat else -sumDaysBwd (-year).toNat

/-- Embeds `solarDate.month || 1` (both `undefined` and `0` are falsy). -/
def monthOr1 : Option Int → Int
  | none => 1
  | some m => if m = 0 then 1 else m

/-- Embeds `solarToGregorian`; the returned `Int` is the signed day offset of
the resulting Gregorian date from the epoch (the source's `totalDays`, which
it turns into a `Date` by day addition onto the epoch). -/
def solarToGregorian (s : SolarInput) : Except ConvError Int :=
  let base := yearStart s.year
  let withinYear :=
    if s.isSolsticeDay then 360 + s.day
    else (monthOr1 s.month - 1) * 30 + s.day
  Except.ok (base + withinYear - 1)

/-- View of a full `SolarDate` as `solarToGregorian` input, as the source's
call sites pass whole `SolarDate` objects structurally. -/
def SolarDate.toInput (d : SolarDate) : SolarInput :=
  { year := d.year, month := some d.month, day := d.day,
    isSolsticeDay := d.isSolsticeDay }

/-- Embeds `getMonthDays`: the 30 regular days of a month, built directly by
arithmetic. -/
def getMonthDays (year month : Int) : List SolarDate :=
  let leap := isSolarLeapYear year
  (List.range 30).map fun (idx : Nat) =>
    let day : Int := (idx : Int) + 1
    let dayOfYear := (month - 1) * 30 + day
    let dow := Int.tmod (day - 1) 6
    { year := year, month := month, day := day, dayOfWeek := some dow,
      dayOfYear := dayOfYear, isSolsticeDay := false,
      solsticeDay := none, isLeapYear := leap }

/-- Embeds `getSolsticeDays`: the 5 or 6 intercalary days of a year. -/
def getSolsticeDays (year : Int) : List SolarDate :=
  let leap := isSolarLeapYear year
  let count : Nat := if leap then 6 else 5
  (List.range count).map fun (idx : Nat) =>
    let i : Int := (idx : Int) + 1
    { year := year, month := 0, day := i, dayOfWeek := none,
      dayOfYear := 360 + i, isSolsticeDay := true,
      solsticeDay := some i, isLeapYear := leap }

/-- Embeds `isSameSolarDay`. -/
def isSameSolarDay (a b : SolarDate) : Bool :=
  if a.isSolsticeDay != b.isSolsticeDay then false
  else if a.year != b.year then false
  else if a.isSolsticeDay then a.solsticeDay == b.solsticeDay
  else a.month == b.month && a.day == b.day

/-- Bridges JavaScript's truncating remainder to the Euclidean one, in a
shape `omega` can consume: for a nonnegative modulus, `Int.tmod` agrees with
`%` on nonnegative dividends and is its mirror image on negative ones. -/
theorem tmod_emod_split (a b : Int) (hb : 0 ≤ b) :
    a.tmod b = a % b ∨ a.tmod b = -(-a % b) := by
  rcases le_or_lt 0 a with h | h
  · exact Or.inl (Int.tmod_eq_emod h hb)
  · right
    have h1 : (-a).tmod b = -(a.tmod b) := by
      rw [Int.tmod_def, Int.tmod_def, Int.neg_tdiv]
      ring
    have h2 : (-a).tmod b = -a % b := Int.tmod_eq_emod (by omega) hb
    omega

/-- Invariant of the forward year walk: starting at a nonnegative year with a
nonnegative day count, it ends with `0 ≤ remainingDays < daysInSolarYear year`
and preserves the total `sumDaysFwd year + remainingDays`. -/
theorem forwardWalk_inv : ∀ year d : Int, 0 ≤ year → 0 ≤ d →
    year ≤ (forwardWalk year d).1 ∧
    0 ≤ (forwardWalk year d).2 ∧
    (forwardWalk year d).2 < daysInSolarYear (forwardWalk year d).1 ∧
    sumDaysFwd ((forwardWalk year d).1).toNat + (forwardWalk year d).2
      = sumDaysFwd year.toNat + d := by
  intro year d
  induction year, d using forwardWalk.induct with
  | case1 year d h ih =>
    intro hy hd
    rw [forwardWalk, dif_pos h]
    have h365 := daysInSolarYear_eq year
    have hrec := ih (by omega) (by omega)
    have hsum : sumDaysFwd (year + 1).toNat = sumDaysFwd year.toNat + daysInSolarYear year := by
      have hn : (year + 1).toNat = year.toNat + 1 := by omega
      rw [hn, sumDaysFwd]
      have hc : ((year.toNat : Int)) = year := Int.toNat_of_nonneg hy
      rw [hc]
    omega
  | case2 year d h =>
    intro hy hd
    rw [forwardWalk, dif_neg h]
    refine ⟨le_refl year, hd, ?_, rfl⟩
    show d < daysInSolarYear year
    omega

/-- Start-of-year offsets of consecutive years differ by that year's length,
for every integer year (crossing the epoch included). -/
theorem yearStart_succ (y : Int) : yearStart (y + 1) = yearStart y + daysInSolarYear y := by
  rcases le_or_lt 0 y with hy | hy
  · rw [yearStart, yearStart, if_pos (by omega : (0:Int) ≤ y + 1), if_pos hy]
    have hn : (y + 1).toNat = y.toNat + 1 := by omega
    rw [hn, sumDaysFwd]
    have hc : ((y.toNat : Int)) = y := Int.toNat_of_nonneg hy
    rw [hc]
  · rcases eq_or_lt_of_le (show y ≤ -1 by omega) with h1 | h1
    · subst h1
      decide
    · rw [yearStart, yearStart, if_neg (by omega), if_neg (by omega)]
      have hn : (-y).toNat = (-(y + 1)).toNat + 1 := by omega
      rw [hn, sumDaysBwd]
      have harg : -((((-(y + 1)).toNat : Int)) + 1) = y := by omega
      rw [harg]
      ring

/-- Invariant of the backward year walk: starting at a negative year with a
negative day count, it ends with `0 ≤ remainingDays < daysInSolarYear year`
and preserves the absolute offset `yearStart (year + 1) + d`. -/
theorem backwardWalk_inv : ∀ year d : Int, year ≤ -1 → d < 0 →
    (backwardWalk year d).1 ≤ -1 ∧
    0 ≤ (backwardWalk year d).2 ∧
    (backwardWalk year d).2 < daysInSolarYear (backwardWalk year d).1 ∧
    yearStart (backwardWalk year d).1 + (backwardWalk year d).2
      = yearStart (year + 1) + d := by
  intro year d
  induction year, d using backwardWalk.induct with
  | case1 year d h h2 ih =>
    intro hy hd
    rw [backwardWalk, dif_pos h, dif_pos h2]
    have hrec := ih (by omega) h2
    have hys := yearStart_succ year
    have hc : year - 1 + 1 = year := by ring
    rw [hc] at hrec
    exact ⟨hrec.1, hrec.2.1, hrec.2.2.1, by omega⟩
  | case2 year d h h2 =>
    intro hy hd
    rw [backwardWalk, dif_pos h, dif_neg h2]
    have hys := yearStart_succ year
    refine ⟨hy, by omega, ?_, ?_⟩
    · show d + daysInSolarYear year < daysInSolarYear year
      omega
    · show yearStart year + (d + daysInSolarYear year) = yearStart (year + 1) + d
      omega
  | case3 year d h =>
    intro hy hd
    exact absurd hd h

/-- Combined invariant of the year walk `gregorianToSolar` performs from the
epoch: the remainder is the 0-indexed day inside the final year, and the
final year's start offset plus the remainder recovers the input offset. -/
theorem walkFromEpoch_inv (n : Int) :
    0 ≤ (walkFromEpoch n).2 ∧
    (walkFromEpoch n).2 < daysInSolarYear (walkFromEpoch n).1 ∧
    yearStart (walkFromEpoch n).1 + (walkFromEpoch n).2 = n := by
  rw [walkFromEpoch]
  split
  case isTrue hn =>
    have hf := forwardWalk_inv 0 n (le_refl 0) hn
    have h1 : yearStart (forwardWalk 0 n).1 = sumDaysFwd ((forwardWalk 0 n).1).toNat := by
      rw [yearStart, if_pos (by omega)]
    have h0 : sumDaysFwd ((0 : Int)).toNat = 0 := rfl
    exact ⟨hf.2.1, hf.2.2.1, by omega⟩
  case isFalse hn =>
    have hb := backwardWalk_inv (-1) n (le_refl (-1)) (by omega)
    have h0 : yearStart (-1 + 1) = 0 := rfl
    exact ⟨hb.2.1, hb.2.2.1, by omega⟩

/-- Feeding the `SolarDate` built from a valid year/remainder pair back into
`solarToGregorian` recovers the absolute day offset `yearStart y + r`. -/
theorem finishConv_roundtrip (y r : Int) (h0 : 0 ≤ r) (h1 : r < daysInSolarYear y) :
    solarToGregorian (finishConv y r).toInput = Except.ok (yearStart y + r) := by
  have h365 := daysInSolarYear_eq y
  rw [finishConv]
  by_cases hc : r + 1 > 360
  · rw [if_pos hc]
    simp only [SolarDate.toInput, solarToGregorian, monthOr1, if_true, ite_true]
    congr 1
    omega
  · rw [if_neg hc]
    simp only [SolarDate.toInput, solarToGregorian, monthOr1, Bool.false_eq_true,
      if_false, ite_false]
    have ht : Int.tmod (r + 1 - 1) 30 = (r + 1 - 1) % 30 :=
      Int.tmod_eq_emod (by omega) (by norm_num)
    have hm : ¬(-(-(r + 1) / 30) = 0) := by omega
    rw [if_neg hm]
    congr 1
    omega

/-- C1: round-trip law.  For every Gregorian date, represented by its signed
whole-day offset `n` from the epoch June 24, 1999 (negative offsets are dates
before the epoch), converting to a Solar date and back yields the same
calendar date, i.e. the same day offset. -/
theorem gregorianToSolar_roundTrip (n : Int) :
    solarToGregorian (gregorianToSolar n).toInput = Except.ok n := by
  obtain ⟨h0, h1, h2⟩ := walkFromEpoch_inv n
  rw [gregorianToSolar, finishConv_roundtrip _ _ h0 h1, h2]

/-- C3: shape of every `gregorianToSolar` result.  Past day 360 the result is
a Solstice day with `month = 0`, `solsticeDay = dayOfYear - 360` and no
weekday; otherwise `month = ceil(dayOfYear / 30)` (written as
`(dayOfYear + 29) / 30`, the integer ceiling for the positive values
involved), `day = ((dayOfYear - 1) mod 30) + 1` and
`dayOfWeek = (day - 1) mod 6`; and the weekday is `null` exactly on Solstice
days. -/
theorem gregorianToSolar_shape (n : Int) :
    (if (gregorianToSolar n).dayOfYear > 360 then
      (gregorianToSolar n).month = 0 ∧
      (gregorianToSolar n).solsticeDay = some ((gregorianToSolar n).dayOfYear - 360) ∧
      (gregorianToSolar n).dayOfWeek = none ∧
      (gregorianToSolar n).isSolsticeDay = true
    else
      (gregorianToSolar n).month = ((gregorianToSolar n).dayOfYear + 29) / 30 ∧
      (gregorianToSolar n).day = ((gregorianToSolar n).dayOfYear - 1) % 30 + 1 ∧
      (gregorianToSolar n).dayOfWeek = some (((gregorianToSolar n).day - 1) % 6) ∧
      (gregorianToSolar n).isSolsticeDay = false) ∧
    ((gregorianToSolar n).dayOfWeek = none ↔ (gregorianToSolar n).isSolsticeDay = true) := by
  obtain ⟨h0, h1, _⟩ := walkFromEpoch_inv n
  rw [gregorianToSolar, finishConv]
  by_cases hc : (walkFromEpoch n).2 + 1 > 360
  · rw [if_pos hc]
    dsimp only
    rw [if_pos hc]
    exact ⟨⟨rfl, rfl, rfl, rfl⟩, by simp⟩
  · rw [if_neg hc]
    dsimp only
    rw [if_neg hc]
    have ht : Int.tmod ((walkFromEpoch n).2 + 1 - 1) 30 = ((walkFromEpoch n).2 + 1 - 1) % 30 :=
      Int.tmod_eq_emod (by omega) (by norm_num)
    have ht6 : Int.tmod (Int.tmod ((walkFromEpoch n).2 + 1 - 1) 30 + 1 - 1) 6
        = (Int.tmod ((walkFromEpoch n).2 + 1 - 1) 30 + 1 - 1) % 6 :=
      Int.tmod_eq_emod (by omega) (by norm_num)
    refine ⟨⟨by omega, by omega, ?_, rfl⟩, by simp⟩
    congr 1

/-- C6: both year walks terminate (they are total functions of the day
offset) and establish `0 ≤ remainingDays < daysInSolarYear year`, so the
resulting `dayOfYear` lies between 1 and the length of the resulting year. -/
theorem walk_bounds (n : Int) :
    0 ≤ (walkFromEpoch n).2 ∧
    (walkFromEpoch n).2 < daysInSolarYear (walkFromEpoch n).1 ∧
    1 ≤ (gregorianToSolar n).dayOfYear ∧
    (gregorianToSolar n).dayOfYear ≤ daysInSolarYear ((gregorianToSolar n).year) := by
  obtain ⟨h0, h1, _⟩ := walkFromEpoch_inv n
  have hfields : (gregorianToSolar n).year = (walkFromEpoch n).1 ∧
      (gregorianToSolar n).dayOfYear = (walkFromEpoch n).2 + 1 := by
    rw [gregorianToSolar, finishConv]
    split
    · exact ⟨rfl, rfl⟩
    · exact ⟨rfl, rfl⟩
  obtain ⟨hy, hd⟩ := hfields
  refine ⟨h0, h1, ?_, ?_⟩
  · rw [hd]
    omega
  · rw [hd, hy]
    omega

/-- Characterization of the leap predicate by the Euclidean remainder. -/
theorem isSolarLeapYear_iff (y : Int) : isSolarLeapYear y = true ↔ y % 4 = 0 := by
  unfold isSolarLeapYear
  rw [beq_iff_eq]
  have h1 := tmod_emod_split y 4 (by norm_num)
  have h2 := tmod_emod_split (Int.tmod y 4 + 4) 4 (by norm_num)
  omega

/-- C2: `isSolarLeapYear y` is true iff `y` is divisible by 4 under
mathematical (Euclidean) modulo, hence is 4-periodic over all integers;
year 0 is leap, years 1–3 are not, year 4 is leap again. -/
theorem isSolarLeapYear_spec :
    (∀ y : Int, (isSolarLeapYear y = true ↔ y % 4 = 0) ∧
      isSolarLeapYear y = isSolarLeapYear (y + 4)) ∧
    isSolarLeapYear 0 = true ∧ isSolarLeapYear 1 = false ∧
    isSolarLeapYear 2 = false ∧ isSolarLeapYear 3 = false ∧
    isSolarLeapYear 4 = true := by
  refine ⟨fun y => ⟨isSolarLeapYear_iff y, ?_⟩, by decide, by decide, by decide,
    by decide, by decide⟩
  rw [Bool.eq_iff_iff, isSolarLeapYear_iff, isSolarLeapYear_iff]
  omega

/-- C4: `solarToGregorian` is total and silently returns a date for every
structurally shaped input — any integer year, any `day`, `month` present or
absent and of any value, Solstice or regular — and in particular never
rejects out-of-range `month`/`day` with `ConvError.invalidArgument`. -/
theorem solarToGregorian_total (s : SolarInput) :
    ∃ n : Int, solarToGregorian s = Except.ok n :=
  ⟨_, rfl⟩

/-- C5: the day immediately before the epoch (June 23, 1999, day offset −1)
converts to Year −1's last Solstice day: year −1, `solsticeDay = 5`, and
year −1 is not leap so its Solstice list has exactly 5 entries. -/
theorem dayBeforeEpoch_solstice :
    gregorianToSolar (-1) =
      { year := -1, month := 0, day := 5, dayOfWeek := none, dayOfYear := 365,
        isSolsticeDay := true, solsticeDay := some 5, isLeapYear := false } ∧
    isSolarLeapYear (-1) = false ∧
    (getSolsticeDays (-1)).length = 5 := by
  refine ⟨?_, by decide, by decide⟩
  have hd : daysInSolarYear (-1) = 365 := by decide
  rw [gregorianToSolar, walkFromEpoch, if_neg (by decide), backwardWalk,
    dif_pos (by decide : (-1 : Int) < 0), hd, dif_neg (by decide : ¬(-1 + 365 < (0 : Int)))]
  rw [finishConv, if_pos (by decide : (-1 : Int) + 365 + 1 > 360)]
  decide

/-- C7: `getSolsticeDays y` has exactly 5 entries for a non-leap year and 6
for a leap year, the entry at index `i` being Solstice day `i + 1` with
`month = 0`, no weekday, and `dayOfYear = 360 + (i + 1)`. -/
theorem getSolsticeDays_spec (y : Int) (i : Nat) (h : i < (getSolsticeDays y).length) :
    (getSolsticeDays y).length = (if isSolarLeapYear y then 6 else 5) ∧
    (getSolsticeDays y).get ⟨i, h⟩ =
      { year := y, month := 0, day := (i : Int) + 1, dayOfWeek := none,
        dayOfYear := 360 + ((i : Int) + 1), isSolsticeDay := true,
        solsticeDay := some ((i : Int) + 1), isLeapYear := isSolarLeapYear y } := by
  constructor
  · simp only [getSolsticeDays, List.length_map, List.length_range]
  · simp only [getSolsticeDays, List.get_eq_getElem, List.getElem_map, List.getElem_range]

/-- Witness for C7 at year 0 (leap, 6 entries), index 5: the 6th and last
Solstice day. -/
theorem getSolsticeDays_spec_witness :
    (getSolsticeDays 0).length = (if isSolarLeapYear 0 then 6 else 5) ∧
    (getSolsticeDays 0).get ⟨5, by decide⟩ =
      { year := 0, month := 0, day := ((5 : Nat) : Int) + 1, dayOfWeek := none,
        dayOfYear := 360 + (((5 : Nat) : Int) + 1), isSolsticeDay := true,
        solsticeDay := some (((5 : Nat) : Int) + 1), isLeapYear := isSolarLeapYear 0 } :=
  getSolsticeDays_spec 0 5 (by decide)

/-- C8: `getMonthDays y m` has exactly 30 entries, the entry at index `i`
being day `i + 1` (so days 1..30 in ascending order) with
`dayOfYear = (m - 1) * 30 + day`, `dayOfWeek = (day - 1) mod 6`
(Euclidean modulo), and `isSolsticeDay = false`, all by direct arithmetic. -/
theorem getMonthDays_spec (y m : Int) (i : Nat) (h : i < (getMonthDays y m).length) :
    (getMonthDays y m).length = 30 ∧
    (getMonthDays y m).get ⟨i, h⟩ =
      { year := y, month := m, day := (i : Int) + 1,
        dayOfWeek := some (((i : Int) + 1 - 1) % 6),
        dayOfYear := (m - 1) * 30 + ((i : Int) + 1), isSolsticeDay := false,
        solsticeDay := none, isLeapYear := isSolarLeapYear y } := by
  constructor
  · simp only [getMonthDays, List.length_map, List.length_range]
  · simp only [getMonthDays, List.get_eq_getElem, List.getElem_map, List.getElem_range,
      SolarDate.mk.injEq]
    have ht : Int.tmod ((i : Int) + 1 - 1) 6 = ((i : Int) + 1 - 1) % 6 :=
      Int.tmod_eq_emod (by omega) (by norm_num)
    exact ⟨trivial, trivial, trivial, congrArg some ht, trivial, trivial, trivial, trivial⟩

/-- Witness for C8 at year 0, month 1, index 7: day 8 with weekday
`(8 - 1) mod 6 = 1`. -/
theorem getMonthDays_spec_witness :
    (getMonthDays 0 1).length = 30 ∧
    (getMonthDays 0 1).get ⟨7, by decide⟩ =
      { year := 0, month := 1, day := ((7 : Nat) : Int) + 1,
        dayOfWeek := some ((((7 : Nat) : Int) + 1 - 1) % 6),
        dayOfYear := ((1 : Int) - 1) * 30 + (((7 : Nat) : Int) + 1), isSolsticeDay := false,
        solsticeDay := none, isLeapYear := isSolarLeapYear 0 } :=
  getMonthDays_spec 0 1 7 (by decide)

/-- C9: `isSameSolarDay` is true exactly when both dates are Solstice days
with equal `year` and `solsticeDay`, or both regular with equal `year`,
`month` and `day`; it is insensitive to the derived `dayOfWeek` and
`dayOfYear` fields (so differing `year` forces `false` even when
`month`/`day` match). -/
theorem isSameSolarDay_spec (a b : SolarDate) :
    (isSameSolarDay a b = true ↔
      ((a.isSolsticeDay = true ∧ b.isSolsticeDay = true ∧ a.year = b.year ∧
        a.solsticeDay = b.solsticeDay) ∨
       (a.isSolsticeDay = false ∧ b.isSolsticeDay = false ∧ a.year = b.year ∧
        a.month = b.month ∧ a.day = b.day))) ∧
    (∀ w z w2 z2, isSameSolarDay
        { a with dayOfWeek := w, dayOfYear := z }
        { b with dayOfWeek := w2, dayOfYear := z2 } = isSameSolarDay a b) := by
  cases a with
  | mk ay am ad aw ao asol asd al =>
    cases b with
    | mk byr bm bd bw bo bsol bsd bl =>
      refine ⟨?_, fun w z w2 z2 => rfl⟩
      cases asol <;> cases bsol <;> simp [isSameSolarDay]

/-- C10: on Solstice-day inputs `solarToGregorian` reads only `year` and
`day`: the `month` field (absent, 0, or any other value) never affects the
returned Gregorian date. -/
theorem solarToGregorian_solstice_ignores_month (y d : Int) (m1 m2 : Option Int) :
    solarToGregorian { year := y, month := m1, day := d, isSolsticeDay := true } =
    solarToGregorian { year := y, month := m2, day := d, isSolsticeDay := true } := rfl
